import Mathlib

/-!
Verification of the repo-tui repository (a terminal dashboard aggregating
GitHub issues/PRs, local git state and SonarCloud quality-gate status).

The Python sources are shallowly embedded:
* dataclasses from `src/repo_tui/models.py` become structures;
* pure functions are translated directly;
* subprocess / network calls are modelled by explicit outcome values
  (`StepResult`, `FetchRes`, oracle functions in environment records), so a
  client operation becomes a total function of the outcomes of its external
  calls;
* Python truthiness (`if xs:`, `a or b`) is modelled explicitly.
-/

/-- `models.Issue`. -/
structure Issue where
  number : Nat
  title : String
  url : String
  labels : List String
  state : String
  body : String
  assignee : Option String
deriving DecidableEq

/-- `models.PullRequest`. -/
structure PullRequest where
  number : Nat
  title : String
  url : String
  author : String
  state : String
  draft : Bool
  labels : Option (List String)
  body : String
  reviewers : Option (List String)
  review_decision : Option String
  head_ref : Option String
  base_ref : Option String
  created_at : Option String
  updated_at : Option String
  mergeable : Option String
  checks_status : Option String
deriving DecidableEq

/-- One entry of `SonarStatus.conditions` (a `dict[str, str]` in Python;
only `metricKey` and `status` are ever read). -/
structure SonarCondition where
  metricKey : String
  status : String
deriving DecidableEq

/-- `models.SonarStatus`. -/
structure SonarStatus where
  project_key : String
  status : String
  url : String
  conditions : List SonarCondition
deriving DecidableEq

/-- `models.RepoOverview`. -/
structure RepoOverview where
  name : String
  owner : String
  url : String
  open_issues_count : Nat
  issues : List Issue
  sonar_status : Option SonarStatus
  local_path : Option String
  sonar_checked : Bool
  language : Option String
  topics : Option (List String)
  pull_requests : Option (List PullRequest)
  details_loaded : Bool
  has_uncommitted_changes : Bool
  current_branch : Option String
  description : Option String
deriving DecidableEq

/-- The recognized configuration fields of `config.Config.data` that the
embedded operations read (`config.py`). -/
structure ConfigData where
  included_repos : List String
  excluded_repos : List String
  sonarcloud_org : Option String
  github_org : Option String
  local_code_path : String
deriving DecidableEq

/-- `Config.should_include_repo` (config.py lines 60-75): whitelist mode when
`included_repos` is non-empty (Python truthiness of the list), otherwise
blacklist mode. -/
def should_include_repo (cfg : ConfigData) (repo_name : String) : Bool :=
  if !cfg.included_repos.isEmpty then
    cfg.included_repos.contains repo_name
  else
    !(cfg.excluded_repos.contains repo_name)

/-- The configuration of the whitelist-precedence scenario:
`included_repos = ["a","b"]`, `excluded_repos = ["a"]`. -/
def cfgWhitelistAB : ConfigData :=
  { included_repos := ["a", "b"]
    excluded_repos := ["a"]
    sonarcloud_org := none
    github_org := none
    local_code_path := "~/Code" }

/-- C8: with `included_repos = ["a","b"]` and `excluded_repos = ["a"]` the
filter accepts exactly "a" and "b"; in general a non-empty whitelist decides
inclusion alone (blacklist ignored), and with an empty whitelist a name passes
iff it is not blacklisted. -/
theorem c8_whitelist_precedence :
    (∀ n : String, should_include_repo cfgWhitelistAB n = true ↔ (n = "a" ∨ n = "b")) ∧
    (∀ (cfg : ConfigData) (n : String), cfg.included_repos ≠ [] →
      should_include_repo cfg n = cfg.included_repos.contains n) ∧
    (∀ (cfg : ConfigData) (n : String), cfg.included_repos = [] →
      should_include_repo cfg n = !(cfg.excluded_repos.contains n)) := by
  refine ⟨fun n => ?_, fun cfg n h => ?_, fun cfg n h => ?_⟩
  · simp [should_include_repo, cfgWhitelistAB]
  · simp [should_include_repo, h]
  · simp [should_include_repo, h]

/-- Witness for C8 at concrete inputs. -/
theorem c8_whitelist_precedence_witness :
    (should_include_repo cfgWhitelistAB "b" = true ↔ ("b" = "a" ∨ "b" = "b")) ∧
    (cfgWhitelistAB.included_repos ≠ [] ∧
      should_include_repo cfgWhitelistAB "c" = cfgWhitelistAB.included_repos.contains "c") ∧
    (({ cfgWhitelistAB with included_repos := [] } : ConfigData).included_repos = [] ∧
      should_include_repo { cfgWhitelistAB with included_repos := [] } "a" =
        !(({ cfgWhitelistAB with included_repos := [] } : ConfigData).excluded_repos.contains "a")) :=
  ⟨c8_whitelist_precedence.1 "b",
   ⟨by decide, c8_whitelist_precedence.2.1 cfgWhitelistAB "c" (by decide)⟩,
   ⟨rfl, c8_whitelist_precedence.2.2 { cfgWhitelistAB with included_repos := [] } "a" rfl⟩⟩

/-- `RepoListWidget._get_priority` (widgets/repo_list.py lines 69-78):
1000 for a quality-gate status of "ERROR", 100 for "WARN", plus the
open-issue count. -/
def get_priority (r : RepoOverview) : Nat :=
  (match r.sonar_status with
    | some s => if s.status = "ERROR" then 1000 else if s.status = "WARN" then 100 else 0
    | none => 0) + r.open_issues_count

/-- The Boolean comparison of the descending sort: `a` may precede `b`
exactly when `a`'s priority is at least `b`'s. -/
def priority_ge (a b : RepoOverview) : Bool :=
  decide (get_priority b ≤ get_priority a)

/-- `sorted(self.repos, key=self._get_priority, reverse=True)` in
`RepoListWidget._rebuild_options` (repo_list.py lines 43-47): Python's sort is
stable and `reverse=True` keeps ties in original order, which is exactly a
stable merge sort under `priority_ge`. -/
def sorted_repos (repos : List RepoOverview) : List RepoOverview :=
  repos.mergeSort priority_ge

theorem priority_ge_trans (a b c : RepoOverview) :
    priority_ge a b → priority_ge b c → priority_ge a c := by
  simp only [priority_ge, decide_eq_true_eq]
  omega

theorem priority_ge_total (a b : RepoOverview) :
    priority_ge a b || priority_ge b a := by
  simp only [priority_ge, Bool.or_eq_true, decide_eq_true_eq]
  omega

/-- A permutation of a two-element list is one of its two arrangements. -/
theorem pair_perm_cases {α : Type} {x y a b : α} (h : [x, y].Perm [a, b]) :
    (x = a ∧ y = b) ∨ (x = b ∧ y = a) := by
  have hx : x ∈ [a, b] := h.subset (by simp)
  rcases List.mem_pair.mp hx with hxa | hxb
  · subst hxa
    left
    have := (h.cons_inv).eq_singleton
    exact ⟨rfl, by simpa using this⟩
  · subst hxb
    right
    have hswap : [x, y].Perm [x, a] := h.trans (List.Perm.swap x a [])
    have := (hswap.cons_inv).eq_singleton
    exact ⟨rfl, by simpa using this⟩

/-- Scenario repository: `open_issues_count = 12`, no quality status. -/
def repoTwelveIssues : RepoOverview :=
  { name := "twelve", owner := "o", url := "u"
    open_issues_count := 12, issues := []
    sonar_status := none, local_path := none, sonar_checked := false
    language := none, topics := none, pull_requests := none
    details_loaded := false, has_uncommitted_changes := false
    current_branch := none, description := none }

/-- Scenario repository: quality status "WARN", `open_issues_count = 1`. -/
def repoWarnOne : RepoOverview :=
  { name := "warn", owner := "o", url := "u"
    open_issues_count := 1, issues := []
    sonar_status := some { project_key := "k", status := "WARN", url := "su", conditions := [] }
    local_path := none, sonar_checked := true
    language := none, topics := none, pull_requests := none
    details_loaded := false, has_uncommitted_changes := false
    current_branch := none, description := none }

theorem sorted_repos_scenario :
    sorted_repos [repoTwelveIssues, repoWarnOne] = [repoWarnOne, repoTwelveIssues] := by
  have hperm : (sorted_repos [repoTwelveIssues, repoWarnOne]).Perm
      [repoTwelveIssues, repoWarnOne] :=
    List.mergeSort_perm _ _
  have hlen : (sorted_repos [repoTwelveIssues, repoWarnOne]).length = 2 := by
    simpa using hperm.length_eq
  obtain ⟨x, y, hxy⟩ := List.length_eq_two.mp hlen
  have hsorted : (sorted_repos [repoTwelveIssues, repoWarnOne]).Pairwise
      (fun a b => priority_ge a b) :=
    List.sorted_mergeSort priority_ge_trans priority_ge_total _
  rw [hxy] at hperm hsorted ⊢
  have hxyle : priority_ge x y := by
    simpa using hsorted
  rcases pair_perm_cases hperm with ⟨hx, hy⟩ | ⟨hx, hy⟩
  · subst hx; subst hy
    exact absurd hxyle (by decide)
  · subst hx; subst hy
    rfl

/-- C2: the priority function is 1000 + openIssues for "ERROR",
100 + openIssues for "WARN", openIssues otherwise (including no status);
the rebuild emits repositories in descending priority order, ties keeping
their original relative order; and in the concrete scenario the WARN
repository (priority 101) sorts above the 12-issue repository (priority 12). -/
theorem c2_priority_order :
    (∀ (r : RepoOverview) (s : SonarStatus), r.sonar_status = some s →
        (s.status = "ERROR" → get_priority r = 1000 + r.open_issues_count) ∧
        (s.status ≠ "ERROR" → s.status = "WARN" → get_priority r = 100 + r.open_issues_count) ∧
        (s.status ≠ "ERROR" → s.status ≠ "WARN" → get_priority r = r.open_issues_count)) ∧
    (∀ r : RepoOverview, r.sonar_status = none → get_priority r = r.open_issues_count) ∧
    (∀ repos : List RepoOverview,
        (sorted_repos repos).Pairwise (fun a b => get_priority b ≤ get_priority a)) ∧
    (∀ repos : List RepoOverview, (sorted_repos repos).Perm repos) ∧
    (∀ (repos : List RepoOverview) (a b : RepoOverview), [a, b].Sublist repos →
        get_priority a = get_priority b → [a, b].Sublist (sorted_repos repos)) ∧
    (get_priority repoTwelveIssues = 12 ∧ get_priority repoWarnOne = 101 ∧
      sorted_repos [repoTwelveIssues, repoWarnOne] = [repoWarnOne, repoTwelveIssues]) := by
  refine ⟨?_, ?_, ?_, ?_, ?_, by decide, by decide, sorted_repos_scenario⟩
  · intro r s hs
    refine ⟨fun he => ?_, fun hne hw => ?_, fun hne hnw => ?_⟩
    · simp [get_priority, hs, he]
    · simp [get_priority, hs, hne, hw]
    · simp [get_priority, hs, hne, hnw]
  · intro r hr
    simp [get_priority, hr]
  · intro repos
    have := List.sorted_mergeSort priority_ge_trans priority_ge_total repos
    exact this.imp fun h => by simpa [priority_ge] using h
  · intro repos
    exact List.mergeSort_perm repos _
  · intro repos a b hsub heq
    exact List.pair_sublist_mergeSort priority_ge_trans priority_ge_total
      (by simp [priority_ge, heq]) hsub

/-- Witness for C2 at concrete inputs. -/
theorem c2_priority_order_witness :
    (repoWarnOne.sonar_status =
        some { project_key := "k", status := "WARN", url := "su", conditions := [] } ∧
      get_priority repoWarnOne = 100 + repoWarnOne.open_issues_count) ∧
    (repoTwelveIssues.sonar_status = none ∧
      get_priority repoTwelveIssues = repoTwelveIssues.open_issues_count) ∧
    ([repoWarnOne, repoWarnOne].Sublist [repoTwelveIssues, repoWarnOne, repoWarnOne] ∧
      [repoWarnOne, repoWarnOne].Sublist
        (sorted_repos [repoTwelveIssues, repoWarnOne, repoWarnOne])) := by
  refine ⟨⟨rfl, ?_⟩, ⟨rfl, ?_⟩, ⟨?_, ?_⟩⟩
  · exact ((c2_priority_order.1 repoWarnOne _ rfl).2.1 (by decide) rfl)
  · exact c2_priority_order.2.1 repoTwelveIssues rfl
  · decide
  · exact c2_priority_order.2.2.2.2.1 [repoTwelveIssues, repoWarnOne, repoWarnOne]
      repoWarnOne repoWarnOne (by decide) rfl

/-- One record of the `gh repo list --json ...` output consumed by
`fetch_all_repos` (data.py): name, owner.login, url, hasIssuesEnabled,
primaryLanguage.name, repositoryTopics names, description. -/
structure RepoListing where
  name : String
  owner : String
  url : String
  hasIssuesEnabled : Bool
  primaryLanguage : Option String
  repositoryTopics : List String
  description : Option String
deriving DecidableEq

/-- The external world seen by one `fetch_repo_data` call (data.py lines
338-377): the per-repository results of `get_repo_issues`, `get_repo_prs`,
`get_local_repo_path` and `get_git_status`. -/
structure FetchEnv where
  issuesFor : String → String → List Issue
  prsFor : String → String → List PullRequest
  localPathFor : String → Option String
  gitStatusFor : String → Bool × Option String

/-- `fetch_repo_data` inside `fetch_all_repos` (data.py lines 338-377):
builds one `RepoOverview`; issues are skipped (empty) when the repository has
issues disabled; `sonar_status` is hard-coded `None` and `sonar_checked`
hard-coded `False`. -/
def fetch_repo_data (env : FetchEnv) (rd : RepoListing) : RepoOverview :=
  let issues := if rd.hasIssuesEnabled then env.issuesFor rd.owner rd.name else []
  let pull_requests := env.prsFor rd.owner rd.name
  let local_path := env.localPathFor rd.name
  let gs := match local_path with
    | some p => env.gitStatusFor p
    | none => (false, none)
  { name := rd.name
    owner := rd.owner
    url := rd.url
    open_issues_count := issues.length
    issues := issues
    sonar_status := none
    local_path := local_path
    sonar_checked := false
    language := rd.primaryLanguage
    topics := if rd.repositoryTopics.isEmpty then none else some rd.repositoryTopics
    pull_requests := some pull_requests
    details_loaded := true
    has_uncommitted_changes := gs.1
    current_branch := gs.2
    description := rd.description }

/-- The filtered and limited repository list of `fetch_all_repos`
(data.py lines 330-333). -/
def filtered_repos (cfg : ConfigData) (listing : List RepoListing) (limit : Nat) :
    List RepoListing :=
  let repos := listing.filter (fun r => should_include_repo cfg r.name)
  if limit > 0 then repos.take limit else repos

/-- `fetch_all_repos` (data.py lines 310-389): list, filter, limit, then
fetch per repository; the batched `asyncio.gather` loop extends `overviews`
batch by batch in list order, so the resulting list is the in-order image of
`fetch_repo_data`. `check_sonar` is accepted but never used by this function.
-/
def fetch_all_repos (cfg : ConfigData) (env : FetchEnv) (listing : List RepoListing)
    (check_sonar : Bool) (limit : Nat) : List RepoOverview :=
  (filtered_repos cfg listing limit).map (fetch_repo_data env)

/-- C4: every overview produced by the full fetch has `sonar_status = none`
and `sonar_checked = false`, for every configuration and either value of
`check_sonar`: the full-fetch pipeline never performs a quality-gate lookup.
-/
theorem c4_full_fetch_never_checks_sonar (cfg : ConfigData) (env : FetchEnv)
    (listing : List RepoListing) (check_sonar : Bool) (limit : Nat)
    (r : RepoOverview) (hr : r ∈ fetch_all_repos cfg env listing check_sonar limit) :
    r.sonar_status = none ∧ r.sonar_checked = false := by
  obtain ⟨rd, _, hrd⟩ := List.mem_map.mp hr
  subst hrd
  exact ⟨rfl, rfl⟩

/-- A trivial fetch environment for witnesses. -/
def envEmpty : FetchEnv :=
  { issuesFor := fun _ _ => []
    prsFor := fun _ _ => []
    localPathFor := fun _ => none
    gitStatusFor := fun _ => (false, none) }

/-- A concrete listing record for witnesses. -/
def listingA : RepoListing :=
  { name := "a", owner := "acme", url := "https://github.com/acme/a"
    hasIssuesEnabled := true, primaryLanguage := none
    repositoryTopics := [], description := none }

/-- A configuration with no whitelist and no blacklist. -/
def cfgOpen : ConfigData :=
  { included_repos := [], excluded_repos := []
    sonarcloud_org := none, github_org := none, local_code_path := "~/Code" }

/-- Witness for C4 at a concrete input (with `check_sonar = true`). -/
theorem c4_full_fetch_never_checks_sonar_witness :
    fetch_repo_data envEmpty listingA ∈ fetch_all_repos cfgOpen envEmpty [listingA] true 0 ∧
    (fetch_repo_data envEmpty listingA).sonar_status = none ∧
    (fetch_repo_data envEmpty listingA).sonar_checked = false :=
  ⟨by simp [fetch_all_repos, filtered_repos, should_include_repo, cfgOpen, listingA],
   c4_full_fetch_never_checks_sonar cfgOpen envEmpty [listingA] true 0 _
     (by simp [fetch_all_repos, filtered_repos, should_include_repo, cfgOpen, listingA])⟩

/-- One step of building `old_sonar_status` in `RepoOverviewApp._do_refresh`
(app.py lines 683-686): repositories with `sonar_checked` set overwrite the
dictionary entry for their name. -/
def old_sonar_step (m : String → Option (Option SonarStatus × Bool)) (r : RepoOverview) :
    String → Option (Option SonarStatus × Bool) :=
  if r.sonar_checked then
    fun n => if n = r.name then some (r.sonar_status, r.sonar_checked) else m n
  else m

/-- The `old_sonar_status` dictionary of `_do_refresh`, as a lookup function:
iterate over the old repositories, keeping `(sonar_status, sonar_checked)`
for each checked repository, later entries overwriting earlier ones. -/
def old_sonar_map (old : List RepoOverview) : String → Option (Option SonarStatus × Bool) :=
  old.foldl old_sonar_step (fun _ => none)

/-- The restore loop of `_do_refresh` (app.py lines 690-693): each refreshed
repository whose name is in the dictionary gets the saved
`sonar_status`/`sonar_checked` copied onto it. -/
def restore_sonar (old new_repos : List RepoOverview) : List RepoOverview :=
  new_repos.map (fun r =>
    match old_sonar_map old r.name with
    | some sv => { r with sonar_status := sv.1, sonar_checked := sv.2 }
    | none => r)

/-- `_do_refresh` at the data level: fetch a fresh summary list, then apply
the sonar carry-forward merge before it replaces the old list. -/
def do_refresh_repos (cfg : ConfigData) (env : FetchEnv) (listing : List RepoListing)
    (check_sonar : Bool) (old : List RepoOverview) : List RepoOverview :=
  restore_sonar old (fetch_all_repos cfg env listing check_sonar 0)

theorem old_sonar_map_eq_find (old : List RepoOverview) (n : String) :
    old_sonar_map old n =
      match old.reverse.find? (fun r => r.sonar_checked && r.name == n) with
      | some r => some (r.sonar_status, r.sonar_checked)
      | none => none := by
  suffices h : ∀ (m : String → Option (Option SonarStatus × Bool)),
      old.foldl old_sonar_step m n =
        match old.reverse.find? (fun r => r.sonar_checked && r.name == n) with
        | some r => some (r.sonar_status, r.sonar_checked)
        | none => m n from h _
  induction old with
  | nil => intro m; rfl
  | cons a t ih =>
    intro m
    rw [List.foldl_cons, ih (old_sonar_step m a), List.reverse_cons, List.find?_append]
    match hfind : t.reverse.find? (fun r => r.sonar_checked && r.name == n) with
    | some r => simp [hfind]
    | none =>
      simp only [hfind, Option.none_or]
      by_cases hch : a.sonar_checked
      · by_cases hname : a.name = n
        · simp [List.find?, hch, hname, old_sonar_step]
        · simp only [List.find?, hch, Bool.true_and]
          rw [show (a.name == n) = false by simpa using hname]
          simp only [old_sonar_step, hch, if_true]
          rw [if_neg (fun h => hname h.symm)]
      · simp only [List.find?]
        rw [show (a.sonar_checked && a.name == n) = false by simp [hch]]
        simp [old_sonar_step, hch]

theorem old_sonar_map_of_unique (old : List RepoOverview) (o : RepoOverview)
    (ho : o ∈ old) (hch : o.sonar_checked = true)
    (huniq : ∀ o' ∈ old, o'.name = o.name → o' = o) :
    old_sonar_map old o.name = some (o.sonar_status, o.sonar_checked) := by
  rw [old_sonar_map_eq_find]
  have hsome : (old.reverse.find? (fun r => r.sonar_checked && r.name == o.name)).isSome := by
    rw [List.find?_isSome]
    exact ⟨o, by simpa using ho, by simp [hch]⟩
  match hfind : old.reverse.find? (fun r => r.sonar_checked && r.name == o.name) with
  | some r =>
    have hp : r.sonar_checked = true ∧ r.name = o.name := by
      simpa using List.find?_some hfind
    have hrmem : r ∈ old := by simpa using List.mem_of_find?_eq_some hfind
    have hro : r = o := huniq r hrmem hp.2
    rw [hfind, hro]
  | none => rw [hfind] at hsome; exact absurd hsome (by simp)

/-- C3: a refresh that does not request a quality-gate check copies the old
summary's `sonar_status`/`sonar_checked` (when the old summary had
`sonar_checked` true) forward onto every refreshed summary with the same
name, before the new list replaces the old one. -/
theorem c3_refresh_preserves_sonar (cfg : ConfigData) (env : FetchEnv)
    (listing : List RepoListing) (old : List RepoOverview) (o : RepoOverview)
    (ho : o ∈ old) (hch : o.sonar_checked = true)
    (huniq : ∀ o' ∈ old, o'.name = o.name → o' = o) :
    ∀ r ∈ fetch_all_repos cfg env listing false 0, r.name = o.name →
      { r with sonar_status := o.sonar_status, sonar_checked := o.sonar_checked } ∈
        do_refresh_repos cfg env listing false old := by
  intro r hr hname
  have hmap : old_sonar_map old r.name = some (o.sonar_status, o.sonar_checked) := by
    rw [hname]; exact old_sonar_map_of_unique old o ho hch huniq
  rw [do_refresh_repos, restore_sonar]
  have h2 := List.mem_map_of_mem (fun r : RepoOverview =>
      match old_sonar_map old r.name with
      | some sv => { r with sonar_status := sv.1, sonar_checked := sv.2 }
      | none => r) hr
  simpa only [hmap] using h2

/-- The old summary of the C3 witness: repository "a", checked, with a
known quality status. -/
def oldRepoA : RepoOverview :=
  { name := "a", owner := "acme", url := "https://github.com/acme/a"
    open_issues_count := 0, issues := []
    sonar_status := some { project_key := "acme_a", status := "OK", url := "su", conditions := [] }
    local_path := none, sonar_checked := true
    language := none, topics := none, pull_requests := none
    details_loaded := false, has_uncommitted_changes := false
    current_branch := none, description := none }

/-- Witness for C3 at a concrete input: the refreshed summary of "a" carries
the old quality status after the merge. -/
theorem c3_refresh_preserves_sonar_witness :
    oldRepoA ∈ [oldRepoA] ∧ oldRepoA.sonar_checked = true ∧
    (∀ r ∈ fetch_all_repos cfgOpen envEmpty [listingA] false 0, r.name = oldRepoA.name →
      { r with sonar_status := oldRepoA.sonar_status, sonar_checked := oldRepoA.sonar_checked } ∈
        do_refresh_repos cfgOpen envEmpty [listingA] false [oldRepoA]) :=
  ⟨by decide, rfl,
    c3_refresh_preserves_sonar cfgOpen envEmpty [listingA] [oldRepoA] oldRepoA
      (by decide) rfl
      (fun o' ho' _ => by simpa using ho')⟩

/-- Python `s.replace('-', '_')` for the punctuation-normalized key pattern
(character-wise replacement on the underlying character list). -/
def replaceDashUnderscore (s : String) : String :=
  ⟨s.data.map (fun c => if c = '-' then '_' else c)⟩

/-- Python truthiness of an optional string (`if org:`): absent and empty
strings are falsy. -/
def strTruthy (o : Option String) : Bool :=
  match o with
  | none => false
  | some s => !s.isEmpty

/-- `SonarCloudClient.guess_project_key` (data.py lines 290-307): the three
base patterns, extended by the two organization patterns when an
organization override is configured (truthy). -/
def guess_project_key (cfg : ConfigData) (owner repo : String) : List String :=
  let org := cfg.sonarcloud_org
  let patterns := [owner ++ "_" ++ repo, repo,
    replaceDashUnderscore owner ++ "_" ++ replaceDashUnderscore repo]
  if strTruthy org then
    patterns ++ [org.getD "" ++ "_" ++ repo, org.getD "" ++ ":" ++ repo]
  else
    patterns

/-- The `for project_key in project_keys:` loop of `fetch_single_repo`
(data.py lines 414-418): call the status lookup for each key in order and
break at the first truthy result; when no call succeeds the loop leaves the
last call's `None` (or the initial `None` for an empty key list). -/
def try_sonar_keys (statusOf : String → Option SonarStatus) :
    List String → Option SonarStatus
  | [] => none
  | k :: ks =>
    match statusOf k with
    | some s => some s
    | none => try_sonar_keys statusOf ks

/-- The external world seen by one `fetch_single_repo` call (data.py lines
392-441): per-call results of the issue fetch, the PR fetch, the per-key
quality-gate lookup, the local-path probe and the git-status probe. -/
structure SingleFetchEnv where
  issuesFor : List Issue
  prsFor : List PullRequest
  sonarFor : String → Option SonarStatus
  localPath : Option String
  gitStatus : Bool × Option String

/-- `fetch_single_repo` (data.py lines 392-441). -/
def fetch_single_repo (cfg : ConfigData) (env : SingleFetchEnv)
    (owner repo_name : String) (check_sonar : Bool) : RepoOverview :=
  let issues := env.issuesFor
  let pull_requests := env.prsFor
  let sonar_status :=
    if check_sonar then try_sonar_keys env.sonarFor (guess_project_key cfg owner repo_name)
    else none
  let local_path := env.localPath
  let gs := match local_path with
    | some _ => env.gitStatus
    | none => (false, none)
  { name := repo_name
    owner := owner
    url := "https://github.com/" ++ owner ++ "/" ++ repo_name
    open_issues_count := issues.length
    issues := issues
    sonar_status := sonar_status
    local_path := local_path
    sonar_checked := check_sonar
    language := none
    topics := none
    pull_requests := some pull_requests
    details_loaded := true
    has_uncommitted_changes := gs.1
    current_branch := gs.2
    description := none }

/-- The configuration of the key-order scenario: organization override
"myorg". -/
def cfgMyorg : ConfigData :=
  { included_repos := [], excluded_repos := []
    sonarcloud_org := some "myorg", github_org := none, local_code_path := "~/Code" }

/-- C5: for owner "acme", repo "widget" and organization override "myorg" the
guessed keys are exactly the five listed strings in order; the single-repo
fetch with quality check enabled resolves its status through this key list;
and the key loop accepts the first key whose lookup is non-absent, ignoring
everything after it. -/
theorem c5_sonar_key_order :
    guess_project_key cfgMyorg "acme" "widget" =
      ["acme_widget", "widget", "acme_widget", "myorg_widget", "myorg:widget"] ∧
    (∀ (cfg : ConfigData) (env : SingleFetchEnv) (owner repo_name : String),
      (fetch_single_repo cfg env owner repo_name true).sonar_status =
        try_sonar_keys env.sonarFor (guess_project_key cfg owner repo_name)) ∧
    (∀ (f : String → Option SonarStatus) (l₁ l₂ : List String) (k : String) (s : SonarStatus),
      (∀ k' ∈ l₁, f k' = none) → f k = some s →
        try_sonar_keys f (l₁ ++ k :: l₂) = some s) := by
  refine ⟨by decide, fun cfg env owner repo_name => rfl, fun f l₁ l₂ k s hnone hk => ?_⟩
  induction l₁ with
  | nil => simp [try_sonar_keys, hk]
  | cons a t ih =>
    have ha : f a = none := hnone a (by simp)
    simp only [List.cons_append, try_sonar_keys, ha]
    exact ih (fun k' hk' => hnone k' (by simp [hk']))

/-- A concrete quality-gate lookup for the C5 witness: only the second key
resolves. -/
def sonarLookupWidget : String → Option SonarStatus :=
  fun k =>
    if k = "widget" then
      some { project_key := "widget", status := "OK", url := "su", conditions := [] }
    else none

/-- Witness for C5: with the first key unresolved, the loop accepts the
second key "widget" and stops there. -/
theorem c5_sonar_key_order_witness :
    (∀ k' ∈ ["acme_widget"], sonarLookupWidget k' = none) ∧
    sonarLookupWidget "widget" =
      some { project_key := "widget", status := "OK", url := "su", conditions := [] } ∧
    try_sonar_keys sonarLookupWidget
        (["acme_widget"] ++ "widget" :: ["acme_widget", "myorg_widget", "myorg:widget"]) =
      some { project_key := "widget", status := "OK", url := "su", conditions := [] } :=
  ⟨by decide, by decide,
    c5_sonar_key_order.2.2 sonarLookupWidget ["acme_widget"]
      ["acme_widget", "myorg_widget", "myorg:widget"] "widget"
      { project_key := "widget", status := "OK", url := "su", conditions := [] }
      (by decide) (by decide)⟩

/-- Outcome of one subprocess step: an exception while spawning or
communicating, or completion with a return code and decoded stdout. -/
inductive StepResult where
  | raised
  | done (returncode : Int) (stdout : String)
deriving DecidableEq

/-- Python `str.strip()` on the decoded stdout: drop leading and trailing
whitespace (character-list implementation, kernel-evaluable). -/
def pyStrip (s : String) : String :=
  ⟨((s.data.dropWhile Char.isWhitespace).reverse.dropWhile Char.isWhitespace).reverse⟩

/-- Python `str.split('\n')`: split at every newline; the empty string
splits to `[""]`. -/
def splitNewline : List Char → List String
  | [] => [⟨[]⟩]
  | c :: cs =>
    let rest := splitNewline cs
    if c = '\n' then ⟨[]⟩ :: rest
    else
      match rest with
      | [] => [⟨[c]⟩]
      | h :: t => ⟨c :: h.data⟩ :: t

/-- `stdout.decode().strip().split('\n')` in `get_git_status`
(data.py line 224). -/
def status_lines (out : String) : List String :=
  splitNewline (pyStrip out).data

/-- Python `line.startswith('??')`. -/
def lineUntracked (l : String) : Bool :=
  match l.data with
  | '?' :: '?' :: _ => true
  | _ => false

/-- Python truthiness of a line (`line and ...`). -/
def strNonempty (l : String) : Bool :=
  !l.data.isEmpty

/-- The dirty determination of `get_git_status` (data.py lines 223-228):
some status line is non-empty and does not start with `??`. -/
def has_changes_of (out : String) : Bool :=
  (status_lines out).any (fun l => strNonempty l && !lineUntracked l)

/-- `GitHubClient.get_git_status` (data.py lines 201-250) as a function of
the two subprocess outcomes (`git status --porcelain`, then
`git rev-parse --abbrev-ref HEAD`). An exception anywhere is caught by the
surrounding `try` and yields `(False, None)`; a non-zero exit of the first
step yields `(False, None)`; a non-zero exit of the second step yields
`(has_changes, None)`. -/
def get_git_status (statusStep branchStep : StepResult) : Bool × Option String :=
  match statusStep with
  | .raised => (false, none)
  | .done rc out =>
    if rc ≠ 0 then (false, none)
    else
      let hasChanges := has_changes_of out
      match branchStep with
      | .raised => (false, none)
      | .done rc2 out2 =>
        if rc2 ≠ 0 then (hasChanges, none)
        else (hasChanges, some (pyStrip out2))

/-- Counterexample to C7 as stated: a probing failure (non-zero exit of the
branch probe) after a successful dirty status probe returns `(true, none)`,
not `(false, none)` — the probe does not return `(false, absent)` on every
probing failure. -/
theorem c7_failure_shape_counterexample :
    get_git_status (StepResult.done 0 " M app.py") (StepResult.done 1 "fatal") =
      (true, none) ∧
    get_git_status (StepResult.done 0 " M app.py") (StepResult.done 1 "fatal") ≠
      (false, none) := by
  constructor
  · decide
  · decide

/-- C7 amended: the dirty flag counts exactly the non-empty status lines not
starting with "??" (untracked excluded); an exception anywhere or a failure
of the status probe yields `(false, none)`; a non-zero exit of the branch
probe yields `(has_changes, none)`, keeping the already-computed dirty flag;
no probe outcome escapes these cases. -/
theorem c7_git_status_amended :
    (∀ b : StepResult, get_git_status StepResult.raised b = (false, none)) ∧
    (∀ (rc : Int) (out : String) (b : StepResult), rc ≠ 0 →
      get_git_status (StepResult.done rc out) b = (false, none)) ∧
    (∀ out : String, get_git_status (StepResult.done 0 out) StepResult.raised = (false, none)) ∧
    (∀ (out : String) (rc2 : Int) (out2 : String), rc2 ≠ 0 →
      get_git_status (StepResult.done 0 out) (StepResult.done rc2 out2) =
        (has_changes_of out, none)) ∧
    (∀ (out out2 : String),
      get_git_status (StepResult.done 0 out) (StepResult.done 0 out2) =
        (has_changes_of out, some (pyStrip out2))) ∧
    (∀ (out : String) (rc2 : Int) (out2 : String),
      ((get_git_status (StepResult.done 0 out) (StepResult.done rc2 out2)).1 = true ↔
        ∃ l ∈ status_lines out, strNonempty l = true ∧ lineUntracked l = false)) := by
  refine ⟨fun b => rfl, fun rc out b h => ?_, fun out => ?_, fun out rc2 out2 h => ?_,
    fun out out2 => ?_, fun out rc2 out2 => ?_⟩
  · simp [get_git_status, h]
  · by_cases h0 : (0 : Int) ≠ 0
    · exact absurd rfl h0
    · simp [get_git_status]
  · simp [get_git_status, h]
  · simp [get_git_status]
  · have hfst : (get_git_status (StepResult.done 0 out) (StepResult.done rc2 out2)).1 =
        has_changes_of out := by
      by_cases h : rc2 ≠ 0 <;> simp [get_git_status, h]
    rw [hfst, has_changes_of, List.any_eq_true]
    constructor
    · rintro ⟨l, hl, hp⟩
      exact ⟨l, hl, by simpa using (Bool.and_eq_true _ _).mp hp⟩
    · rintro ⟨l, hl, h1, h2⟩
      exact ⟨l, hl, by simp [h1, h2]⟩

/-- Witness for C7 amended at concrete inputs. -/
theorem c7_git_status_amended_witness :
    get_git_status StepResult.raised (StepResult.done 0 "main") = (false, none) ∧
    ((1 : Int) ≠ 0 ∧
      get_git_status (StepResult.done 1 "err") (StepResult.done 0 "main") = (false, none)) ∧
    get_git_status (StepResult.done 0 "?? new.txt") StepResult.raised = (false, none) ∧
    ((1 : Int) ≠ 0 ∧
      get_git_status (StepResult.done 0 "?? new.txt") (StepResult.done 1 "") =
        (has_changes_of "?? new.txt", none)) ∧
    get_git_status (StepResult.done 0 "?? new.txt") (StepResult.done 0 " main\n") =
      (has_changes_of "?? new.txt", some (pyStrip " main\n")) ∧
    ((get_git_status (StepResult.done 0 " M a.py\n?? b.py") (StepResult.done 0 "main")).1 = true ↔
      ∃ l ∈ status_lines " M a.py\n?? b.py", strNonempty l = true ∧ lineUntracked l = false) :=
  ⟨c7_git_status_amended.1 _,
   ⟨by decide, c7_git_status_amended.2.1 1 "err" _ (by decide)⟩,
   c7_git_status_amended.2.2.1 _,
   ⟨by decide, c7_git_status_amended.2.2.2.1 "?? new.txt" 1 "" (by decide)⟩,
   c7_git_status_amended.2.2.2.2.1 "?? new.txt" " main\n",
   c7_git_status_amended.2.2.2.2.2 " M a.py\n?? b.py" 0 "main"⟩

/-- One element of `statusCheckRollup.contexts`: optional `state` (status
contexts) and optional `conclusion` (check runs). -/
structure CheckContext where
  state : Option String
  conclusion : Option String
deriving DecidableEq

/-- Python `a or b` on optional strings: the left operand when truthy
(present and non-empty), otherwise the right operand. -/
def pyOrStr (a b : Option String) : Option String :=
  if strTruthy a then a else b

/-- `c.get("state") or c.get("conclusion")` (data.py line 153). -/
def contextStatus (c : CheckContext) : Option String :=
  pyOrStr c.state c.conclusion

/-- Python `s in [...]` where `s` may be `None` (data.py lines 154-158). -/
def optIn (s : Option String) (l : List String) : Bool :=
  match s with
  | some v => l.contains v
  | none => false

/-- The checks-status reduction of `GitHubClient.get_repo_prs` (data.py lines
146-159): a falsy or missing rollup gives no status; an empty context list
gives no status; otherwise any failing context gives "FAILURE", else any
pending context gives "PENDING", else — with contexts whose merged status is
falsy skipped by the `if s` filter — all remaining statuses in the success
set give "SUCCESS", and anything else leaves no status. -/
def compute_checks_status (rollup : Option (List CheckContext)) : Option String :=
  match rollup with
  | none => none
  | some contexts =>
    if contexts.isEmpty then none
    else
      let statuses := contexts.map contextStatus
      if statuses.any (fun s => optIn s ["FAILURE", "failure", "TIMED_OUT"]) then
        some "FAILURE"
      else if statuses.any (fun s => optIn s ["PENDING", "pending", "IN_PROGRESS"]) then
        some "PENDING"
      else if statuses.all (fun s => if strTruthy s then optIn s ["SUCCESS", "success"] else true) then
        some "SUCCESS"
      else
        none

/-- Modelled from the spec's words, for comparison with
`compute_checks_status` (refinement): failure if any context's state is
failing; else pending if any is pending; else success if ALL contexts'
states are success; else none. -/
def spec_checks_status (rollup : Option (List CheckContext)) : Option String :=
  match rollup with
  | none => none
  | some contexts =>
    if contexts.isEmpty then none
    else
      let statuses := contexts.map contextStatus
      if statuses.any (fun s => optIn s ["FAILURE", "failure", "TIMED_OUT"]) then
        some "FAILURE"
      else if statuses.any (fun s => optIn s ["PENDING", "pending", "IN_PROGRESS"]) then
        some "PENDING"
      else if statuses.all (fun s => optIn s ["SUCCESS", "success"]) then
        some "SUCCESS"
      else
        none

/-- Counterexample to C6 as stated: a single context with neither state nor
conclusion is skipped by the code's `if s` filter, so the code reports
"SUCCESS" where the claimed reduction (all states success, else none)
reports no status. -/
theorem c6_checks_counterexample :
    compute_checks_status (some [{ state := none, conclusion := none }]) = some "SUCCESS" ∧
    spec_checks_status (some [{ state := none, conclusion := none }]) = none := by
  constructor
  · decide
  · decide

/-- C6 amended: with a non-empty context list, any failing merged status
gives "FAILURE"; else any pending gives "PENDING"; else, if every context
with a truthy (present, non-empty) merged status is in the success set —
contexts without one are ignored — the result is "SUCCESS"; else no status.
A missing/falsy rollup or an empty context list gives no status. -/
theorem c6_checks_status_amended (contexts : List CheckContext) (hne : contexts ≠ []) :
    ((∃ c ∈ contexts, optIn (contextStatus c) ["FAILURE", "failure", "TIMED_OUT"]) →
      compute_checks_status (some contexts) = some "FAILURE") ∧
    ((∀ c ∈ contexts, ¬ optIn (contextStatus c) ["FAILURE", "failure", "TIMED_OUT"]) →
      (∃ c ∈ contexts, optIn (contextStatus c) ["PENDING", "pending", "IN_PROGRESS"]) →
      compute_checks_status (some contexts) = some "PENDING") ∧
    ((∀ c ∈ contexts, ¬ optIn (contextStatus c) ["FAILURE", "failure", "TIMED_OUT"]) →
      (∀ c ∈ contexts, ¬ optIn (contextStatus c) ["PENDING", "pending", "IN_PROGRESS"]) →
      (∀ c ∈ contexts, strTruthy (contextStatus c) →
        optIn (contextStatus c) ["SUCCESS", "success"]) →
      compute_checks_status (some contexts) = some "SUCCESS") ∧
    ((∀ c ∈ contexts, ¬ optIn (contextStatus c) ["FAILURE", "failure", "TIMED_OUT"]) →
      (∀ c ∈ contexts, ¬ optIn (contextStatus c) ["PENDING", "pending", "IN_PROGRESS"]) →
      (∃ c ∈ contexts, strTruthy (contextStatus c) ∧
        ¬ optIn (contextStatus c) ["SUCCESS", "success"]) →
      compute_checks_status (some contexts) = none) ∧
    compute_checks_status none = none ∧
    compute_checks_status (some []) = none := by
  have hne' : contexts.isEmpty = false := by
    simpa using hne
  have hdef : compute_checks_status (some contexts) =
      (if contexts.isEmpty then none
       else if (contexts.map contextStatus).any
          (fun s => optIn s ["FAILURE", "failure", "TIMED_OUT"]) then some "FAILURE"
       else if (contexts.map contextStatus).any
          (fun s => optIn s ["PENDING", "pending", "IN_PROGRESS"]) then some "PENDING"
       else if (contexts.map contextStatus).all
          (fun s => if strTruthy s then optIn s ["SUCCESS", "success"] else true) then
         some "SUCCESS"
       else none) := rfl
  refine ⟨fun hfail => ?_, fun hnf hpend => ?_, fun hnf hnp hsucc => ?_,
    fun hnf hnp hmix => ?_, rfl, rfl⟩
  · obtain ⟨c, hc, hcf⟩ := hfail
    have hany : (contexts.map contextStatus).any
        (fun s => optIn s ["FAILURE", "failure", "TIMED_OUT"]) = true := by
      rw [List.any_eq_true]
      exact ⟨contextStatus c, List.mem_map_of_mem _ hc, hcf⟩
    rw [hdef, hne', hany]
    simp
  · obtain ⟨c, hc, hcp⟩ := hpend
    have hf : (contexts.map contextStatus).any
        (fun s => optIn s ["FAILURE", "failure", "TIMED_OUT"]) = false := by
      rw [List.any_eq_false]
      intro s hsm
      obtain ⟨c', hc', rfl⟩ := List.mem_map.mp hsm
      exact hnf c' hc'
    have hp : (contexts.map contextStatus).any
        (fun s => optIn s ["PENDING", "pending", "IN_PROGRESS"]) = true := by
      rw [List.any_eq_true]
      exact ⟨contextStatus c, List.mem_map_of_mem _ hc, hcp⟩
    rw [hdef, hne', hf, hp]
    simp
  · have hf : (contexts.map contextStatus).any
        (fun s => optIn s ["FAILURE", "failure", "TIMED_OUT"]) = false := by
      rw [List.any_eq_false]
      intro s hsm
      obtain ⟨c', hc', rfl⟩ := List.mem_map.mp hsm
      exact hnf c' hc'
    have hp : (contexts.map contextStatus).any
        (fun s => optIn s ["PENDING", "pending", "IN_PROGRESS"]) = false := by
      rw [List.any_eq_false]
      intro s hsm
      obtain ⟨c', hc', rfl⟩ := List.mem_map.mp hsm
      exact hnp c' hc'
    have hs : (contexts.map contextStatus).all
        (fun s => if strTruthy s then optIn s ["SUCCESS", "success"] else true) = true := by
      rw [List.all_eq_true]
      intro s hsm
      obtain ⟨c', hc', rfl⟩ := List.mem_map.mp hsm
      by_cases ht : strTruthy (contextStatus c')
      · simp [ht, hsucc c' hc' ht]
      · simp [ht]
    rw [hdef, hne', hf, hp, hs]
    simp
  · obtain ⟨c, hc, hct, hcs⟩ := hmix
    have hf : (contexts.map contextStatus).any
        (fun s => optIn s ["FAILURE", "failure", "TIMED_OUT"]) = false := by
      rw [List.any_eq_false]
      intro s hsm
      obtain ⟨c', hc', rfl⟩ := List.mem_map.mp hsm
      exact hnf c' hc'
    have hp : (contexts.map contextStatus).any
        (fun s => optIn s ["PENDING", "pending", "IN_PROGRESS"]) = false := by
      rw [List.any_eq_false]
      intro s hsm
      obtain ⟨c', hc', rfl⟩ := List.mem_map.mp hsm
      exact hnp c' hc'
    have hs : (contexts.map contextStatus).all
        (fun s => if strTruthy s then optIn s ["SUCCESS", "success"] else true) = false := by
      rw [List.all_eq_false]
      refine ⟨contextStatus c, List.mem_map_of_mem _ hc, ?_⟩
      simp [hct, hcs]
    rw [hdef, hne', hf, hp, hs]
    simp

/-- Witness for C6 amended at concrete context lists. -/
theorem c6_checks_status_amended_witness :
    (([{ state := some "SUCCESS", conclusion := none },
       { state := some "FAILURE", conclusion := none }] : List CheckContext) ≠ [] ∧
      compute_checks_status (some [{ state := some "SUCCESS", conclusion := none },
        { state := some "FAILURE", conclusion := none }]) = some "FAILURE") ∧
    (([{ state := none, conclusion := some "SUCCESS" },
       { state := some "PENDING", conclusion := none }] : List CheckContext) ≠ [] ∧
      compute_checks_status (some [{ state := none, conclusion := some "SUCCESS" },
        { state := some "PENDING", conclusion := none }]) = some "PENDING") ∧
    (([{ state := none, conclusion := some "success" }] : List CheckContext) ≠ [] ∧
      compute_checks_status (some [{ state := none, conclusion := some "success" }]) =
        some "SUCCESS") ∧
    (([{ state := some "NEUTRAL", conclusion := none }] : List CheckContext) ≠ [] ∧
      compute_checks_status (some [{ state := some "NEUTRAL", conclusion := none }]) = none) :=
  ⟨⟨by decide,
    (c6_checks_status_amended _ (by decide)).1
      ⟨{ state := some "FAILURE", conclusion := none }, by decide, by decide⟩⟩,
   ⟨by decide,
    (c6_checks_status_amended _ (by decide)).2.1 (by decide)
      ⟨{ state := some "PENDING", conclusion := none }, by decide, by decide⟩⟩,
   ⟨by decide,
    (c6_checks_status_amended _ (by decide)).2.2.1 (by decide) (by decide) (by decide)⟩,
   ⟨by decide,
    (c6_checks_status_amended _ (by decide)).2.2.2.1 (by decide) (by decide)
      ⟨{ state := some "NEUTRAL", conclusion := none }, by decide, by decide⟩⟩⟩

/-- Observable events of the batched fetch loop of `fetch_all_repos`
(data.py lines 379-388): a progress-callback invocation, and the completion
of a batch's gathered per-repository fetch tasks. -/
inductive FetchEvent where
  | progress (current total : Nat) (label : String)
  | batchFetched (names : List String)
deriving DecidableEq

/-- The `for i in range(0, total, batch_size)` loop of `fetch_all_repos`
with a progress callback supplied (data.py lines 379-388, `batch_size = 10`):
for each batch the callback is awaited with `i + len(batch)` and the batch
label, and then `asyncio.gather` runs the batch's fetch tasks. `i` is the
start index of the remaining list `rem` within the full repository list. -/
def batch_trace (total i : Nat) (rem : List RepoListing) : List FetchEvent :=
  match rem with
  | [] => []
  | r :: rest =>
    let batch := (r :: rest).take 10
    FetchEvent.progress (i + batch.length) total ("batch " ++ toString (i / 10 + 1)) ::
      FetchEvent.batchFetched (batch.map (fun b => b.name)) ::
        batch_trace total (i + 10) ((r :: rest).drop 10)
termination_by rem.length
decreasing_by
  simp [List.length_drop]
  omega

/-- The event trace of one `fetch_all_repos` run with a progress callback
(data.py lines 310-389): filter and limit the listing, then run the batch
loop from index 0. -/
def fetch_all_trace (cfg : ConfigData) (listing : List RepoListing) (limit : Nat) :
    List FetchEvent :=
  let repos := filtered_repos cfg listing limit
  batch_trace repos.length 0 repos

def isProgressEvent : FetchEvent → Bool
  | .progress .. => true
  | .batchFetched _ => false

def isBatchEvent : FetchEvent → Bool
  | .progress .. => false
  | .batchFetched _ => true

/-- The ordering C9 claims: every progress-callback invocation happens only
after its batch's fetch tasks completed, so every trace prefix contains at
least as many batch completions as progress invocations. -/
def progress_only_after_batch (tr : List FetchEvent) : Prop :=
  ∀ n : Nat, (tr.take n).countP isProgressEvent ≤ (tr.take n).countP isBatchEvent

theorem batch_trace_length (total : Nat) (i : Nat) (rem : List RepoListing) :
    (batch_trace total i rem).length = 2 * ((rem.length + 9) / 10) := by
  induction i, rem using batch_trace.induct total with
  | case1 i => simp [batch_trace]
  | case2 i r rest ih =>
    rw [batch_trace.eq_def]
    simp only [List.length_cons, List.length_drop] at ih ⊢
    rw [ih]
    omega

theorem batch_trace_get_progress (total : Nat) :
    ∀ (k i : Nat) (rem : List RepoListing), 10 * k < rem.length →
      (batch_trace total i rem).get? (2 * k) =
        some (FetchEvent.progress (i + 10 * k + min 10 (rem.length - 10 * k)) total
          ("batch " ++ toString ((i + 10 * k) / 10 + 1))) := by
  intro k
  induction k with
  | zero =>
    intro i rem h
    match rem with
    | [] => simp at h
    | r :: rest =>
      rw [batch_trace.eq_def]
      simp only [List.get?, List.length_take, List.length_cons, Nat.mul_zero, Nat.add_zero,
        Nat.sub_zero]
  | succ k ih =>
    intro i rem h
    match rem with
    | [] => simp at h
    | r :: rest =>
      have h10 : 10 * k < (List.drop 10 (r :: rest)).length := by
        simp only [List.length_drop, List.length_cons]
        simp only [List.length_cons] at h
        omega
      rw [batch_trace.eq_def]
      rw [show 2 * (k + 1) = 2 * k + 1 + 1 by ring]
      simp only [List.get?_cons_succ]
      rw [ih (i + 10) _ h10]
      have e1 : i + 10 + 10 * k + min 10 ((List.drop 10 (r :: rest)).length - 10 * k) =
          i + 10 * (k + 1) + min 10 ((r :: rest).length - 10 * (k + 1)) := by
        simp only [List.length_drop, List.length_cons]
        omega
      have e2 : (i + 10 + 10 * k) / 10 + 1 = (i + 10 * (k + 1)) / 10 + 1 := by omega
      rw [e1, e2]

theorem batch_trace_get_batch (total : Nat) :
    ∀ (k i : Nat) (rem : List RepoListing), 10 * k < rem.length →
      (batch_trace total i rem).get? (2 * k + 1) =
        some (FetchEvent.batchFetched
          (((rem.drop (10 * k)).take 10).map (fun b => b.name))) := by
  intro k
  induction k with
  | zero =>
    intro i rem h
    match rem with
    | [] => simp at h
    | r :: rest =>
      rw [batch_trace.eq_def]
      simp
  | succ k ih =>
    intro i rem h
    match rem with
    | [] => simp at h
    | r :: rest =>
      have h10 : 10 * k < (List.drop 10 (r :: rest)).length := by
        simp only [List.length_drop, List.length_cons]
        simp only [List.length_cons] at h
        omega
      rw [batch_trace.eq_def]
      rw [show 2 * (k + 1) + 1 = (2 * k + 1) + 1 + 1 by ring]
      simp only [List.get?_cons_succ]
      rw [ih (i + 10) _ h10]
      rw [List.drop_drop]
      rw [show (10 : Nat) + 10 * k = 10 * (k + 1) by ring]

/-- Counterexample to C9 as stated: with one repository the trace starts
with the progress invocation and the batch's fetch completes only
afterwards — the callback for a batch is not invoked after that batch's
tasks have completed. -/
theorem c9_progress_order_counterexample :
    fetch_all_trace cfgOpen [listingA] 0 =
      [FetchEvent.progress 1 1 "batch 1", FetchEvent.batchFetched ["a"]] ∧
    ¬ progress_only_after_batch (fetch_all_trace cfgOpen [listingA] 0) := by
  have htr : fetch_all_trace cfgOpen [listingA] 0 =
      [FetchEvent.progress 1 1 "batch 1", FetchEvent.batchFetched ["a"]] := by
    show batch_trace 1 0 [listingA] = _
    rw [batch_trace.eq_def]
    simp
    rw [batch_trace.eq_def]
    decide
  refine ⟨htr, fun hcl => ?_⟩
  have h1 := hcl 1
  rw [htr] at h1
  revert h1
  decide

/-- C9 amended: batches are processed sequentially and the progress callback
fires exactly once per batch, immediately BEFORE the batch's fetch tasks
run, reporting the total and the cumulative repository count through the
current batch: the trace is an alternation of one progress event and one
batch completion per batch, the k-th progress event (position 2k) reporting
`min (10 * (k+1)) total`, and the k-th batch completion (position 2k+1)
carrying the k-th ten-repository slice. -/
theorem c9_progress_per_batch_amended (cfg : ConfigData) (listing : List RepoListing)
    (limit : Nat) :
    (fetch_all_trace cfg listing limit).length =
      2 * (((filtered_repos cfg listing limit).length + 9) / 10) ∧
    (∀ k : Nat, 10 * k < (filtered_repos cfg listing limit).length →
      (fetch_all_trace cfg listing limit).get? (2 * k) =
        some (FetchEvent.progress
          (min (10 * (k + 1)) (filtered_repos cfg listing limit).length)
          (filtered_repos cfg listing limit).length
          ("batch " ++ toString (k + 1)))) ∧
    (∀ k : Nat, 10 * k < (filtered_repos cfg listing limit).length →
      (fetch_all_trace cfg listing limit).get? (2 * k + 1) =
        some (FetchEvent.batchFetched
          ((((filtered_repos cfg listing limit).drop (10 * k)).take 10).map
            (fun r => r.name)))) := by
  refine ⟨batch_trace_length _ _ _, fun k hk => ?_, fun k hk => ?_⟩
  · rw [fetch_all_trace, batch_trace_get_progress _ k 0 _ hk]
    have e1 : 0 + 10 * k + min 10 ((filtered_repos cfg listing limit).length - 10 * k) =
        min (10 * (k + 1)) (filtered_repos cfg listing limit).length := by omega
    have e2 : (0 + 10 * k) / 10 + 1 = k + 1 := by omega
    rw [e1, e2]
  · rw [fetch_all_trace, batch_trace_get_batch _ k 0 _ hk]

/-- Witness for C9 amended at a concrete one-repository run (k = 0). -/
theorem c9_progress_per_batch_amended_witness :
    (fetch_all_trace cfgOpen [listingA] 0).length =
      2 * (((filtered_repos cfgOpen [listingA] 0).length + 9) / 10) ∧
    (10 * 0 < (filtered_repos cfgOpen [listingA] 0).length ∧
      (fetch_all_trace cfgOpen [listingA] 0).get? (2 * 0) =
        some (FetchEvent.progress
          (min (10 * (0 + 1)) (filtered_repos cfgOpen [listingA] 0).length)
          (filtered_repos cfgOpen [listingA] 0).length
          ("batch " ++ toString (0 + 1)))) ∧
    (10 * 0 < (filtered_repos cfgOpen [listingA] 0).length ∧
      (fetch_all_trace cfgOpen [listingA] 0).get? (2 * 0 + 1) =
        some (FetchEvent.batchFetched
          ((((filtered_repos cfgOpen [listingA] 0).drop (10 * 0)).take 10).map
            (fun r => r.name)))) :=
  ⟨(c9_progress_per_batch_amended cfgOpen [listingA] 0).1,
   ⟨by decide, (c9_progress_per_batch_amended cfgOpen [listingA] 0).2.1 0 (by decide)⟩,
   ⟨by decide, (c9_progress_per_batch_amended cfgOpen [listingA] 0).2.2 0 (by decide)⟩⟩
